import Mathlib

/-!
Verification development for the jmespath core evaluator (src/jmespath/ast.py,
a Python 2 module: it imports izip_longest and maps the unicode type).

The embedding models JSON-shaped runtime values, the host-language (CPython 2)
comparison and truthiness semantics that the source leans on, every AST node
class with its search method, the _Projection broadcast hooks, and the
FunctionExpression argument-resolution wrapper with the built-in registry.
-/

namespace Jmespath

/-- Python floats, modelled as exact (unnormalized) integer fractions
num/den with den positive for every value the evaluator constructs.
JSON documents carry no infinities or NaNs and the evaluator performs no
arithmetic that leaves the rationals, so exact fractions are faithful. -/
structure PyFloat where
  num : Int
  den : Int
deriving DecidableEq, Repr

/-- JSON-shaped runtime values. `bool`, `int` and `float` are kept distinct
because CPython 2 distinguishes them by type name (the wrapper validates
types via type(x).__name__) while coercing them numerically in ==, <, etc.
`proj` models the _Projection list subclass: isinstance(x, list) is true for
both `arr` and `proj`, but only `proj` carries the broadcast hook methods. -/
inductive Value where
  | null
  | bool (b : Bool)
  | int (n : Int)
  | float (f : PyFloat)
  | str (s : String)
  | arr (elems : List Value)
  | obj (entries : List (String × Value))
  | proj (elems : List Value)

/-- type(x).__name__ for each value kind. JSON string values in Python 2 are
unicode; we use a single string kind and the name "str" (both "str" and
"unicode" are accepted wherever the source accepts strings, and both sort
above "dict" and "list" in the type-name order, so the choice is
unobservable in this model). -/
def pyTypeName : Value → String
  | .null => "NoneType"
  | .bool _ => "bool"
  | .int _ => "int"
  | .float _ => "float"
  | .str _ => "str"
  | .arr _ => "list"
  | .obj _ => "dict"
  | .proj _ => "_Projection"

/-- Numeric view: PyNumber_Check is true for bool, int and float in
CPython 2 (bool is a subclass of int, True counting as 1). -/
def Value.toNum : Value → Option (Int × Int)
  | .bool b => some (if b then 1 else 0, 1)
  | .int n => some (n, 1)
  | .float f => some (f.num, f.den)
  | _ => none

/-- Equality of two fractions by cross multiplication (denominators are
positive for every value the evaluator builds). -/
def numEq (x y : Int × Int) : Bool :=
  x.1 * y.2 == y.1 * x.2

/-- Three-way comparison of two fractions by cross multiplication. -/
def numCmp (x y : Int × Int) : Ordering :=
  if x.1 * y.2 < y.1 * x.2 then .lt
  else if x.1 * y.2 == y.1 * x.2 then .eq
  else .gt

/-- Three-way string comparison. -/
def cmpStr (s t : String) : Ordering :=
  if s < t then .lt else if t < s then .gt else .eq

/-- First-match association lookup, the model of dict key lookup (keys of a
Python dict are unique; entry lists built by the evaluator keep them so). -/
def alookup : List (String × Value) → String → Option Value
  | [], _ => none
  | (k, v) :: rest, key => if k = key then some v else alookup rest key

mutual
/-- CPython 2 ==. Numbers (bool included) compare numerically across kinds;
strings, lists and dicts compare structurally; every other cross-kind pair
is unequal. None == x only for x None. -/
def pyEq : Value → Value → Bool
  | .null, .null => true
  | .str s, .str t => s == t
  | .arr xs, .arr ys => pyEqList xs ys
  | .arr xs, .proj ys => pyEqList xs ys
  | .proj xs, .arr ys => pyEqList xs ys
  | .proj xs, .proj ys => pyEqList xs ys
  | .obj xs, .obj ys => xs.length == ys.length && pyEqFields xs ys
  | a, b =>
    match a.toNum, b.toNum with
    | some x, some y => numEq x y
    | _, _ => false
termination_by a _ => sizeOf a

/-- List equality: equal lengths and elementwise ==. -/
def pyEqList : List Value → List Value → Bool
  | [], [] => true
  | x :: xs, y :: ys => pyEq x y && pyEqList xs ys
  | _, _ => false
termination_by l _ => sizeOf l

/-- One direction of dict equality: every entry of the first dict is matched
by key in the second with an == value (lengths are compared separately). -/
def pyEqFields : List (String × Value) → List (String × Value) → Bool
  | [], _ => true
  | (k, v) :: xs, ys =>
    (match alookup ys k with
     | some w => pyEq v w
     | none => false) && pyEqFields xs ys
termination_by l _ => sizeOf l
end

/-- An entry of xs counts as differing from ys when ys lacks its key or maps
it to a non-== value (the helper of CPython dict comparison). -/
def fieldDiffers (ys : List (String × Value)) (kv : String × Value) : Bool :=
  match alookup ys kv.1 with
  | some w => !(pyEq kv.2 w)
  | none => true

/-- CPython characterize: the differing entry of xs with the smallest key
(first occurrence wins ties, matching the replace-only-when-smaller scan). -/
def charac : List (String × Value) → List (String × Value) → Option (String × Value)
  | [], _ => none
  | kv :: rest, ys =>
    if fieldDiffers ys kv then
      match charac rest ys with
      | some best => if cmpStr best.1 kv.1 = .lt then some best else some kv
      | none => some kv
    else charac rest ys

theorem charac_mem (xs ys : List (String × Value)) (kv : String × Value)
    (h : charac xs ys = some kv) : kv ∈ xs := by
  induction xs with
  | nil => simp [charac] at h
  | cons hd tl ih =>
    simp only [charac] at h
    split at h
    · split at h
      · split at h <;> simp_all
      · simp_all
    · exact List.mem_cons_of_mem _ (ih h)

mutual
/-- CPython 2 three-way comparison (the semantics behind operator.lt and
friends). Same-kind strings, lists and dicts compare natively; numbers
(bool included) compare numerically across numeric kinds; otherwise None is
smallest, then numbers (whose type name is taken as the empty string), then
remaining kinds ordered by type name. A list subclass such as _Projection
still takes the native elementwise list path. -/
def pyCmp : Value → Value → Ordering
  | .str s, .str t => cmpStr s t
  | .arr xs, .arr ys => pyCmpList xs ys
  | .arr xs, .proj ys => pyCmpList xs ys
  | .proj xs, .arr ys => pyCmpList xs ys
  | .proj xs, .proj ys => pyCmpList xs ys
  | .obj xs, .obj ys =>
    if xs.length ≠ ys.length then compare xs.length ys.length
    else
      match hA : charac xs ys with
      | none => .eq
      | some kvA =>
        match charac ys xs with
        | none => .eq
        | some kvB =>
          match cmpStr kvA.1 kvB.1 with
          | .eq => pyCmp kvA.2 kvB.2
          | o => o
  | a, b =>
    match a.toNum, b.toNum with
    | some x, some y => numCmp x y
    | _, _ =>
      match a, b with
      | .null, .null => .eq
      | .null, _ => .lt
      | _, .null => .gt
      | a, b =>
        if a.toNum.isSome then .lt
        else if b.toNum.isSome then .gt
        else cmpStr (pyTypeName a) (pyTypeName b)
termination_by a _ => sizeOf a
decreasing_by
  all_goals first
    | decreasing_tactic
    | (have hm := charac_mem _ _ _ hA
       have h1 := List.sizeOf_lt_of_mem hm
       obtain ⟨k, v⟩ := kvA
       simp only [Prod.mk.sizeOf_spec] at h1
       simp only [Value.obj.sizeOf_spec]
       omega)

/-- CPython 2 list comparison: scan for the first elementwise-unequal pair
and three-way compare it; a list that is a prefix of the other is smaller. -/
def pyCmpList : List Value → List Value → Ordering
  | [], [] => .eq
  | [], _ :: _ => .lt
  | _ :: _, [] => .gt
  | x :: xs, y :: ys => if pyEq x y then pyCmpList xs ys else pyCmp x y
termination_by l _ => sizeOf l
end

/-- Host-language truthiness, the test used by `if expression.search(element):`
in the filter paths. Note that numeric zero is FALSY in Python. -/
def pyTruthy : Value → Bool
  | .null => false
  | .bool b => b
  | .int n => n != 0
  | .float f => f.num != 0
  | .str s => s != ""
  | .arr xs => !xs.isEmpty
  | .obj es => !es.isEmpty
  | .proj xs => !xs.isEmpty

/-- Stable insertion used to model sorted(): an element is placed before the
first strictly greater element, hence before later-coming equal elements. -/
def pyInsert (x : Value) : List Value → List Value
  | [] => [x]
  | y :: ys => if pyCmp x y = .gt then y :: pyInsert x ys else x :: y :: ys

/-- Model of sorted(xs) under the CPython 2 comparison order (stable,
ascending). -/
def pySorted : List Value → List Value
  | [] => []
  | x :: xs => pyInsert x (pySorted xs)

/-- Stable insertion of an (element, key) pair ordered by the key part,
modelling sorted(xs, key=f). -/
def pyInsertPair (x : Value × Value) : List (Value × Value) → List (Value × Value)
  | [] => [x]
  | y :: ys => if pyCmp x.2 y.2 = .gt then y :: pyInsertPair x ys else x :: y :: ys

/-- Stable sort of decorated pairs by key. -/
def pySortedPairs : List (Value × Value) → List (Value × Value)
  | [] => []
  | x :: xs => pyInsertPair x (pySortedPairs xs)

/-- Digits of a numeral to the natural number they denote. -/
def digitsToNat (l : List Char) : Nat :=
  l.foldl (fun acc c => acc * 10 + (c.toNat - '0'.toNat)) 0

/-- A nonempty all-digit string. -/
def allDigits (l : List Char) : Bool :=
  !l.isEmpty && l.all (fun c => c.isDigit)

/-- Python str.isspace characters relevant to stripping. -/
def pyIsSpace (c : Char) : Bool :=
  c = ' ' || c = '\t' || c = '\n' || c = '\r' || c = '\x0b' || c = '\x0c'

/-- Strip leading and trailing whitespace at the character level (the
implicit strip of int() and float()). -/
def stripChars (l : List Char) : List Char :=
  ((l.dropWhile pyIsSpace).reverse.dropWhile pyIsSpace).reverse

/-- Python int(s): surrounding whitespace stripped, an optional sign, then a
nonempty run of digits consuming the whole rest; anything else raises
ValueError, modelled as none. -/
def pyParseInt (s : String) : Option Int :=
  match stripChars s.toList with
  | '+' :: rest => if allDigits rest then some (Int.ofNat (digitsToNat rest)) else none
  | '-' :: rest => if allDigits rest then some (-(Int.ofNat (digitsToNat rest))) else none
  | rest => if allDigits rest then some (Int.ofNat (digitsToNat rest)) else none

/-- Longest leading run of digits and the remainder. -/
def takeDigits : List Char → List Char × List Char
  | [] => ([], [])
  | c :: cs =>
    if c.isDigit then
      let (d, r) := takeDigits cs
      (c :: d, r)
    else ([], c :: cs)

/-- Exponent part of a float literal after the e/E marker. -/
def parseExp : List Char → Option Int
  | '+' :: rest => if allDigits rest then some (Int.ofNat (digitsToNat rest)) else none
  | '-' :: rest => if allDigits rest then some (-(Int.ofNat (digitsToNat rest))) else none
  | rest => if allDigits rest then some (Int.ofNat (digitsToNat rest)) else none

/-- Mantissa: digits with an optional dot part, at least one digit overall.
Returns numerator, denominator and the unconsumed remainder. -/
def parseMantissa (l : List Char) : Option (Int × Int × List Char) :=
  let (ip, r1) := takeDigits l
  match r1 with
  | '.' :: r2 =>
    let (fp, r3) := takeDigits r2
    if ip.isEmpty && fp.isEmpty then none
    else some (Int.ofNat (digitsToNat (ip ++ fp)), Int.ofNat (10 ^ fp.length), r3)
  | _ => if ip.isEmpty then none else some (Int.ofNat (digitsToNat ip), 1, r1)

/-- Scale a fraction by a power of ten. -/
def applyExp (n d e : Int) : PyFloat :=
  if 0 ≤ e then ⟨n * 10 ^ e.toNat, d⟩ else ⟨n, d * 10 ^ (-e).toNat⟩

/-- Python float(s) on the numeric literal forms: optional sign, digits with
an optional dot, optional exponent. The source reaches float() only for
strings containing a dot; named forms such as inf and nan contain no dot
and are immaterial here. A failed parse (ValueError) is none. -/
def pyParseFloat (s : String) : Option PyFloat :=
  let go : List Char → Option PyFloat := fun l =>
    match parseMantissa l with
    | none => none
    | some (n, d, rest) =>
      match rest with
      | [] => some ⟨n, d⟩
      | 'e' :: r => (parseExp r).map (fun e => applyExp n d e)
      | 'E' :: r => (parseExp r).map (fun e => applyExp n d e)
      | _ => none
  match stripChars s.toList with
  | '+' :: rest => go rest
  | '-' :: rest => (go rest).map (fun f => ⟨-f.num, f.den⟩)
  | rest => go rest

/-- JSON string escaping as json.dumps performs it for the common escapes. -/
def escChar (c : Char) : String :=
  if c = '"' then "\\\""
  else if c = '\\' then "\\\\"
  else if c = '\n' then "\\n"
  else if c = '\t' then "\\t"
  else if c = '\r' then "\\r"
  else String.singleton c

/-- Escape a whole string body. -/
def escString (s : String) : String :=
  String.join (s.toList.map escChar)

/-- Decimal rendering of a float. Exact decimal fractions are rendered
exactly; the repr of a general binary double is approximated by the exact
value of our fraction model (only to_string consumes this). -/
def floatRepr (f : PyFloat) : String :=
  let n := f.num
  let d := f.den
  if d == 1 then toString n ++ ".0"
  else
    match (List.range 40).find? (fun k => n * (10 : Int) ^ k % d == 0) with
    | some 0 => toString (n / d) ++ ".0"
    | some k =>
      let m := n * 10 ^ k / d
      let sgn := if m < 0 then "-" else ""
      let s0 := toString m.natAbs
      let s1 := if s0.length ≤ k then String.mk (List.replicate (k + 1 - s0.length) '0') ++ s0 else s0
      sgn ++ s1.take (s1.length - k) ++ "." ++ s1.drop (s1.length - k)
    | none => toString n ++ "/" ++ toString d

mutual
/-- json.dumps with its default separators, as used by to_string. The
_Projection subclass serializes as a JSON array. -/
def jsonDumps : Value → String
  | .null => "null"
  | .bool b => if b then "true" else "false"
  | .int n => toString n
  | .float f => floatRepr f
  | .str s => "\"" ++ escString s ++ "\""
  | .arr xs => "[" ++ jsonDumpsList xs ++ "]"
  | .proj xs => "[" ++ jsonDumpsList xs ++ "]"
  | .obj es => "\x7b" ++ jsonDumpsFields es ++ "\x7d"
termination_by v => sizeOf v

/-- Comma-joined array items. -/
def jsonDumpsList : List Value → String
  | [] => ""
  | [x] => jsonDumps x
  | x :: xs => jsonDumps x ++ ", " ++ jsonDumpsList xs
termination_by l => sizeOf l

/-- Comma-joined object entries. -/
def jsonDumpsFields : List (String × Value) → String
  | [] => ""
  | [(k, v)] => "\"" ++ escString k ++ "\": " ++ jsonDumps v
  | (k, v) :: es => "\"" ++ escString k ++ "\": " ++ jsonDumps v ++ ", " ++ jsonDumpsFields es
termination_by l => sizeOf l
end

/-- AST node kinds, one constructor per node class of the source. The six
comparator subclasses are separate constructors carrying their operand
pair. -/
inductive AST where
  | subExpression (parent child : AST)
  | field (name : String)
  | multiFieldDict (nodes : List AST)
  | multiFieldList (nodes : List AST)
  | keyValPair (keyName : String) (node : AST)
  | index (i : Int)
  | wildcardIndex
  | wildcardValues
  | listElements
  | orExpression (first remaining : AST)
  | filterExpression (expression : AST)
  | literal (literalValue : Value)
  | currentNode
  | opEquals (first second : AST)
  | opNotEquals (first second : AST)
  | opLessThan (first second : AST)
  | opLessThanEquals (first second : AST)
  | opGreaterThan (first second : AST)
  | opGreaterThanEquals (first second : AST)
  | funcExpr (name : String) (args : List AST)

/-- The _Arg argument spec: whether the argument AST is evaluated against
the current value, and the optionally declared jmespath type tags. -/
structure ArgSpec where
  resolve : Bool
  types : Option (List String)
deriving DecidableEq

/-- What the resolution loop can hand to a function body: an evaluated
value, an unevaluated expression (resolve=False), or the _Arg spec object
itself when izip_longest pads a missing argument with argspec[-1]. -/
inductive ResolvedArg where
  | val (v : Value)
  | expr (a : AST)
  | spec (s : ArgSpec)

/-- Failure modes of evaluation and construction. typeErr is the structured
JMESPathTypeError; attributeErr and hostTypeErr are the uncaught host
AttributeError and TypeError; unknownFunction is the ValueError raised by
FunctionExpression.__init__. -/
inductive Err where
  | typeErr (functionName : String) (current : ResolvedArg) (actualType : String) (expectedTypes : List String)
  | attributeErr
  | hostTypeErr
  | unknownFunction (name : String)

/-- type(current).__name__ as the wrapper reads it. A passed-through AST
node or _Arg spec has its class name; no such name appears among the
allowed python type names, so membership tests treat any stand-in name
alike, and specs with declared types always resolve their argument. -/
def typeNameR : ResolvedArg → String
  | .val v => pyTypeName v
  | .expr _ => "AST"
  | .spec _ => "_Arg"

/-- Truthiness as the wrapper tests `and current`: values by pyTruthy;
arbitrary host objects (AST nodes, _Arg specs) are truthy. -/
def pyTruthyR : ResolvedArg → Bool
  | .val v => pyTruthy v
  | _ => true

/-- REVERSE_TYPES_MAP. The null entry says "None" although
type(None).__name__ is "NoneType" (a latent mismatch; no built-in declares
the null tag). Unknown tags would raise KeyError; the registry only uses
the six tags below. -/
def reverseTypesMap : String → List String
  | "boolean" => ["bool"]
  | "array" => ["list", "_Projection"]
  | "object" => ["dict", "OrderedDict"]
  | "null" => ["None"]
  | "string" => ["unicode", "str"]
  | "number" => ["float", "int"]
  | _ => []

/-- Split a character list at the first dash (the split with maxsplit 1). -/
def splitDash : List Char → List Char × Option (List Char)
  | [] => ([], none)
  | '-' :: rest => ([], some rest)
  | c :: rest =>
    let (a, b) := splitDash rest
    (c :: a, b)

/-- Split a type tag at its first dash: "array-number" becomes a base and a
subtype (the registry tags carry at most one dash). -/
def splitType (t : String) : String × Option String :=
  match splitDash t.toList with
  | (a, some b) => (String.mk a, some (String.mk b))
  | (a, none) => (String.mk a, none)

/-- Accumulate allowed python type names and the per-alternative element
type-name groups, in declaration order. -/
def buildAllowed (types : List String) : List String × List (List String) :=
  types.foldl
    (fun acc t =>
      match splitType t with
      | (base, some sub) => (acc.1 ++ reverseTypesMap base, acc.2 ++ [reverseTypesMap sub])
      | (base, none) => (acc.1 ++ reverseTypesMap base, acc.2))
    ([], [])

/-- Check every element of an array argument against a single allowed
element-type group, failing with a TypeError citing the first offender. -/
def checkElems (fname : String) (types : List String) (sub : List String) :
    List Value → Except Err Unit
  | [] => pure ()
  | e :: es =>
    if pyTypeName e ∈ sub then checkElems fname types sub es
    else throw (.typeErr fname (.val e) (pyTypeName e) types)

/-- First element-type group containing the given type name. -/
def findGroup (first : String) : List (List String) → Option (List String)
  | [] => none
  | g :: gs => if first ∈ g then some g else findGroup first gs

/-- Dynamic subtype validation: the first element picks the group, then
every element must belong to it; a first element in no group fails citing
that element. -/
def dynamicCheck (fname : String) (types : List String) (subs : List (List String)) :
    List Value → Except Err Unit
  | [] => pure ()
  | e0 :: rest =>
    match findGroup (pyTypeName e0) subs with
    | some g => checkElems fname types g (e0 :: rest)
    | none => throw (.typeErr fname (.val e0) (pyTypeName e0) types)

/-- The type-validation step of _resolve_arguments_wrapper for one resolved
argument. -/
def validateArg (fname : String) (declared : Option (List String)) (current : ResolvedArg) :
    Except Err Unit :=
  match declared with
  | none => pure ()
  | some types =>
    let at_ := buildAllowed types
    let actual := typeNameR current
    if actual ∈ at_.1 then
      match at_.2 with
      | [] => pure ()
      | [sub] =>
        -- a single array-T alternative is validated elementwise up front
        match current with
        | .val (.arr xs) => checkElems fname types sub xs
        | .val (.proj xs) => checkElems fname types sub xs
        | _ => throw .hostTypeErr -- iterating a non-sequence; unreachable past the outer check
      | subs =>
        if pyTruthyR current then
          match current with
          | .val (.arr xs) => dynamicCheck fname types subs xs
          | .val (.proj xs) => dynamicCheck fname types subs xs
          | _ => throw .hostTypeErr -- indexing a non-sequence; unreachable past the outer check
        else pure ()
    else throw (.typeErr fname current actual types)

/-- The built-in registry: the signature decorator data of each _func_
method, keyed by function name. Arity is the argspec length. -/
def getBuiltin : String → Option (List ArgSpec × Bool)
  | "not_null" => some ([⟨true, none⟩], true)
  | "abs" => some ([⟨true, some ["number"]⟩], false)
  | "avg" => some ([⟨true, some ["array-number"]⟩], false)
  | "to_string" => some ([⟨true, none⟩], false)
  | "to_number" => some ([⟨true, none⟩], false)
  | "contains" => some ([⟨true, some ["array", "string"]⟩, ⟨true, none⟩], false)
  | "length" => some ([⟨true, some ["string", "array", "object"]⟩], false)
  | "ceil" => some ([⟨true, some ["number"]⟩], false)
  | "floor" => some ([⟨true, some ["number"]⟩], false)
  | "join" => some ([⟨true, some ["string"]⟩, ⟨true, some ["array-string"]⟩], false)
  | "max" => some ([⟨true, some ["array-number"]⟩], false)
  | "min" => some ([⟨true, some ["array-number"]⟩], false)
  | "sort" => some ([⟨true, some ["array-string", "array-number"]⟩], false)
  | "sort_by" => some ([⟨true, none⟩, ⟨false, none⟩], false)
  | "keys" => some ([⟨true, some ["object"]⟩], false)
  | "values" => some ([⟨true, some ["object"]⟩], false)
  | "type" => some ([⟨true, none⟩], false)
  | _ => none

/-- Body of not_null: the first argument that is not None, else the
implicit None. The variadic spec resolves every argument, so only values
reach this body; a non-value is modelled as null. -/
def funcNotNull : List ResolvedArg → Value
  | [] => .null
  | .val .null :: rest => funcNotNull rest
  | .val v :: _ => v
  | _ :: rest => funcNotNull rest

/-- Body of abs: booleans are special-cased to None; ints and floats take
their absolute value; abs() of any other object raises TypeError, which the
body catches, returning None. -/
def funcAbs : ResolvedArg → Value
  | .val (.bool _) => .null
  | .val (.int n) => .int |n|
  | .val (.float f) => .float ⟨|f.num|, f.den⟩
  | _ => .null

/-- Exact sum of a list of numbers (bool counting as 0/1); none as soon as
a non-numeric element appears (the TypeError the body catches). -/
def sumNums : Int × Int → List Value → Option (Int × Int)
  | acc, [] => some acc
  | acc, v :: vs =>
    match v.toNum with
    | some x => sumNums (acc.1 * x.2 + x.1 * acc.2, acc.2 * x.2) vs
    | none => none

/-- Body of avg: None unless the argument is a nonempty list whose elements
all add as numbers; otherwise the float total divided by the length. -/
def funcAvg : ResolvedArg → Value
  | .val (.arr xs) => avgOf xs
  | .val (.proj xs) => avgOf xs
  | _ => .null
where
  avgOf (xs : List Value) : Value :=
    if xs.isEmpty then .null
    else
      match sumNums (0, 1) xs with
      | some (n, d) => .float ⟨n, d * xs.length⟩
      | none => .null

/-- Body of to_string: strings pass through, anything else is JSON-encoded.
A non-value argument cannot reach this body (its spec resolves). -/
def funcToString : ResolvedArg → Except Err Value
  | .val (.str s) => pure (.str s)
  | .val v => pure (.str (jsonDumps v))
  | _ => throw .hostTypeErr

/-- Body of to_number. isinstance(x, (int, float)) also accepts booleans,
which pass through unchanged. Strings parse as float when they contain a
dot, else as int, with ValueError caught to None. On None the
dot-membership test raises TypeError; on lists and dicts the membership
test succeeds but the int()/float() conversion raises TypeError; both are
uncaught (only ValueError is handled). -/
def funcToNumber : ResolvedArg → Except Err Value
  | .val (.bool b) => pure (.bool b)
  | .val (.int n) => pure (.int n)
  | .val (.float f) => pure (.float f)
  | .val (.str s) =>
    if s.toList.contains '.' then
      match pyParseFloat s with
      | some f => pure (.float f)
      | none => pure .null
    else
      match pyParseInt s with
      | some n => pure (.int n)
      | none => pure .null
  | _ => throw .hostTypeErr

/-- Prefix test on character lists. -/
def leadEq : List Char → List Char → Bool
  | [], _ => true
  | _ :: _, [] => false
  | a :: xs, b :: ys => a == b && leadEq xs ys

/-- Substring test on character lists (the py2 `needle in haystack`). -/
def listIsSub (needle hay : List Char) : Bool :=
  match hay with
  | [] => needle.isEmpty
  | _ :: rest => leadEq needle hay || listIsSub needle rest

/-- Body of contains: membership for list subjects, substring for string
subjects (a non-string needle against a string subject raises the host
TypeError of `in`), and implicit None for every other subject. -/
def funcContains (subject srch : ResolvedArg) : Except Err Value :=
  match subject with
  | .val (.arr xs) => pure (.bool (containsIn xs srch))
  | .val (.proj xs) => pure (.bool (containsIn xs srch))
  | .val (.str s) =>
    match srch with
    | .val (.str t) => pure (.bool (listIsSub t.toList s.toList))
    | _ => throw .hostTypeErr
  | _ => pure .null
where
  containsIn (xs : List Value) : ResolvedArg → Bool
    | .val w => xs.any (fun e => pyEq e w)
    | _ => false

/-- Body of length: booleans give None; strings, sequences and dicts their
length; len() of anything else raises TypeError (unreachable past
validation). -/
def funcLength : ResolvedArg → Except Err Value
  | .val (.bool _) => pure .null
  | .val (.str s) => pure (.int s.length)
  | .val (.arr xs) => pure (.int xs.length)
  | .val (.proj xs) => pure (.int xs.length)
  | .val (.obj es) => pure (.int es.length)
  | _ => throw .hostTypeErr

/-- Floor division of a fraction with positive denominator. -/
def intFloorDiv (n d : Int) : Int := Int.fdiv n d

/-- Ceiling division of a fraction with positive denominator. -/
def intCeilDiv (n d : Int) : Int := -(Int.fdiv (-n) d)

/-- Body of ceil: math.ceil of any int, float or bool (a float results);
None otherwise. -/
def funcCeil : ResolvedArg → Value
  | .val v =>
    match v.toNum with
    | some (n, d) => .float ⟨intCeilDiv n d, 1⟩
    | none => .null
  | _ => .null

/-- Body of floor, symmetric to ceil. -/
def funcFloor : ResolvedArg → Value
  | .val v =>
    match v.toNum with
    | some (n, d) => .float ⟨intFloorDiv n d, 1⟩
    | none => .null
  | _ => .null

/-- All-strings view of a list, none when join would raise the TypeError
the body catches. -/
def allStrs : List Value → Option (List String)
  | [] => some []
  | .str t :: rest => (allStrs rest).map (fun l => t :: l)
  | _ => none

/-- Body of join. -/
def funcJoin (sep arrArg : ResolvedArg) : Value :=
  match sep, arrArg with
  | .val (.str s), .val (.arr xs) => joinStrs s xs
  | .val (.str s), .val (.proj xs) => joinStrs s xs
  | _, _ => .null
where
  joinStrs (s : String) (xs : List Value) : Value :=
    match allStrs xs with
    | some strs => .str (String.intercalate s strs)
    | none => .null

/-- The max loop. The source starts best at float(-inf); we carry best as an
Option with none standing for -inf. Every value except None exceeds -inf in
the py2 order (numbers numerically, other kinds because a number ranks
below every named type), so none is left only when all elements are None -
impossible past array-number validation; that corner is mapped to null. -/
def loopMax : Option Value → List Value → Value
  | some b, [] => b
  | none, [] => .null
  | none, e :: es =>
    match e with
    | .null => loopMax none es
    | _ => loopMax (some e) es
  | some b, e :: es => if pyCmp e b = .gt then loopMax (some e) es else loopMax (some b) es

/-- Body of max. -/
def funcMax : ResolvedArg → Value
  | .val (.arr xs) => if xs.isEmpty then .null else loopMax none xs
  | .val (.proj xs) => if xs.isEmpty then .null else loopMax none xs
  | _ => .null

/-- Which values rank below float(inf): None and every number; strings,
lists and dicts rank above all numbers. -/
def ltPosInf (e : Value) : Bool :=
  match e with
  | .null => true
  | _ => e.toNum.isSome

/-- The min loop, with none standing for the initial float(inf). -/
def loopMin : Option Value → List Value → Value
  | some b, [] => b
  | none, [] => .null
  | none, e :: es => if ltPosInf e then loopMin (some e) es else loopMin none es
  | some b, e :: es => if pyCmp e b = .lt then loopMin (some e) es else loopMin (some b) es

/-- Body of min. -/
def funcMin : ResolvedArg → Value
  | .val (.arr xs) => if xs.isEmpty then .null else loopMin none xs
  | .val (.proj xs) => if xs.isEmpty then .null else loopMin none xs
  | _ => .null

/-- Body of sort: list(sorted(arg)) for any list (projections included),
None otherwise. -/
def funcSort : ResolvedArg → Value
  | .val (.arr xs) => .arr (pySorted xs)
  | .val (.proj xs) => .arr (pySorted xs)
  | _ => .null

/-- Body of keys (dict key order is the entry order of this model; CPython 2
dict order is implementation defined). -/
def funcKeys : ResolvedArg → Value
  | .val (.obj es) => .arr (es.map (fun kv => Value.str kv.1))
  | _ => .null

/-- Body of values. -/
def funcValues : ResolvedArg → Value
  | .val (.obj es) => .arr (es.map (fun kv => kv.2))
  | _ => .null

/-- Body of type, checking string, boolean, array, object, number, null in
the order of the source (booleans before numbers). -/
def funcType : ResolvedArg → Value
  | .val (.str _) => .str "string"
  | .val (.bool _) => .str "boolean"
  | .val (.arr _) => .str "array"
  | .val (.proj _) => .str "array"
  | .val (.obj _) => .str "object"
  | .val (.float _) => .str "number"
  | .val (.int _) => .str "number"
  | .val .null => .str "null"
  | _ => .null

/-- Dispatch of the pure built-in bodies after resolution and the host call
check. sort_by is dispatched in search because its key argument is an
expression evaluated per element; argument shapes of the wrong length are
excluded by the call-arity check. -/
def applyBuiltin (name : String) (args : List ResolvedArg) : Except Err Value :=
  match name, args with
  | "not_null", rest => pure (funcNotNull rest)
  | "abs", [a] => pure (funcAbs a)
  | "avg", [a] => pure (funcAvg a)
  | "to_string", [a] => funcToString a
  | "to_number", [a] => funcToNumber a
  | "contains", [a, b] => funcContains a b
  | "length", [a] => funcLength a
  | "ceil", [a] => pure (funcCeil a)
  | "floor", [a] => pure (funcFloor a)
  | "join", [a, b] => pure (funcJoin a b)
  | "max", [a] => pure (funcMax a)
  | "min", [a] => pure (funcMin a)
  | "sort", [a] => pure (funcSort a)
  | "keys", [a] => pure (funcKeys a)
  | "values", [a] => pure (funcValues a)
  | "type", [a] => pure (funcType a)
  | _, _ => throw .hostTypeErr

/-- A list result inside _Projection.get is rewrapped as a sub-projection
(isinstance(result, list) holds for both plain lists and projections). -/
def asProjIfList : Value → Value
  | .arr xs => .proj xs
  | .proj xs => .proj xs
  | v => v

/-- The _Projection.get broadcast for Field: dict elements are looked up
(None results dropped, list results rewrapped), nested projections recurse,
elements without a get method are skipped by the AttributeError handler. -/
def projGet (name : String) : List Value → List Value
  | [] => []
  | .obj entries :: es =>
    (match alookup entries name with
     | some .null => projGet name es
     | none => projGet name es
     | some r => asProjIfList r :: projGet name es)
  | .proj inner :: es => .proj (projGet name inner) :: projGet name es
  | _ :: es => projGet name es

/-- Python list indexing with negative indices from the end; out of range is
an IndexError, modelled as none. -/
def pyIndex (xs : List Value) (i : Int) : Option Value :=
  let n : Int := xs.length
  let j := if i < 0 then i + n else i
  if 0 ≤ j && j < n then xs.get? j.toNat else none

/-- The _Projection.get_index broadcast: non-list elements are skipped, an
out-of-range index is skipped, and an in-range element is appended even
when it is None. -/
def projGetIndex (i : Int) : List Value → List Value
  | [] => []
  | .arr xs :: es =>
    (match pyIndex xs i with
     | some r => r :: projGetIndex i es
     | none => projGetIndex i es)
  | .proj xs :: es =>
    (match pyIndex xs i with
     | some r => r :: projGetIndex i es
     | none => projGetIndex i es)
  | _ :: es => projGetIndex i es

/-- The _Projection.get_literal broadcast: one copy of the literal per
element, recursing through nested projections. -/
def projGetLiteral (x : Value) : List Value → List Value
  | [] => []
  | .proj inner :: es => .proj (projGetLiteral x inner) :: projGetLiteral x es
  | _ :: es => x :: projGetLiteral x es

/-- The _Projection.values broadcast: dict elements contribute a projection
of their values, nested projections recurse, others are skipped by the
AttributeError handler. -/
def projValues : List Value → List Value
  | [] => []
  | .obj entries :: es => .proj (entries.map (fun kv => kv.2)) :: projValues es
  | .proj inner :: es => .proj (projValues inner) :: projValues es
  | _ :: es => projValues es

/-- One level of flattening for ListElements: inner lists (projections
included, as list subclasses) are spliced, other elements kept. -/
def flattenOnce : List Value → List Value
  | [] => []
  | .arr xs :: es => xs ++ flattenOnce es
  | .proj xs :: es => xs ++ flattenOnce es
  | e :: es => e :: flattenOnce es

/-- Remove the entry of a key (the helper of dict assignment modelling). -/
def eraseKey : List (String × Value) → String → List (String × Value)
  | [], _ => []
  | (k0, v0) :: rest, k =>
    if k0 = k then eraseKey rest k else (k0, v0) :: eraseKey rest k

/-- node.key_name: present only on KeyValPair nodes; the attribute lookup on
any other node raises AttributeError. -/
def astKeyName : AST → Except Err String
  | .keyValPair k _ => pure k
  | _ => throw .attributeErr

/-- Identity with the interned small ints: x is 0 or x is 1 holds exactly
for the int objects 0 and 1 (CPython interns them). A float is a distinct
object even when numerically 0 or 1, and the bool singletons are not the
int objects, so neither satisfies the identity test. -/
def isInt01 : Value → Bool
  | .int n => n == 0 || n == 1
  | _ => false

/-- Identity with the bool singletons: x is True or x is False. -/
def isBoolV : Value → Bool
  | .bool _ => true
  | _ => false

/-- The special case of OPEquals: first is 0 or first is 1 answers whether
second is a bool; failing that, second is 0 or second is 1 answers whether
first is a bool; else the implicit None, falsy. -/
def isSpecialIntegerCase (first second : Value) : Bool :=
  if isInt01 first then isBoolV second
  else if isInt01 second then isBoolV first
  else false

/-- OPEquals._equals: the special integer case forces False, everything
else is host ==. -/
def opEq (first second : Value) : Bool :=
  if isSpecialIntegerCase first second then false else pyEq first second

mutual
/-- The search method of every AST node over a runtime value, in the Except
monad because function type validation and uncaught host errors abort the
whole evaluation. Each arm mirrors one search method of the source,
including the value-hook dispatch that routes projections to the
_Projection broadcast methods. -/
def search : AST → Value → Except Err Value
  | .subExpression parent child, v => do
    let subValue ← search parent v
    search child subValue
  | .field name, v =>
    match v with
    | .obj entries => pure ((alookup entries name).getD .null)
    | .proj elems => pure (.proj (projGet name elems))
    | _ => pure .null
  | .multiFieldDict nodes, v =>
    (match v with
     | .null => pure .null
     | .proj elems => do
       let rs ← projMultiGetDict nodes elems
       pure (.proj rs)
     | v => do
       let d ← multiGetDictOne nodes v
       pure (.obj d))
  | .multiFieldList nodes, v =>
    (match v with
     | .null => pure .null
     | .proj elems => do
       let rs ← projMultiGetList nodes elems
       pure (.proj rs)
     | v => do
       let l ← multiGetListOne nodes v
       pure (.arr l))
  | .keyValPair _ node, v => search node v
  | .index i, v =>
    match v with
    | .arr xs => pure ((pyIndex xs i).getD .null)
    | .proj elems => pure (.proj (projGetIndex i elems))
    | _ => pure .null
  | .wildcardIndex, v =>
    match v with
    | .arr xs => pure (.proj xs)
    | .proj xs => pure (.proj xs)
    | _ => pure .null
  | .wildcardValues, v =>
    match v with
    | .obj entries => pure (.proj (entries.map (fun kv => kv.2)))
    | .proj elems => pure (.proj (projValues elems))
    | _ => pure .null
  | .listElements, v =>
    match v with
    | .arr xs => pure (.proj (flattenOnce xs))
    | .proj xs => pure (.proj (flattenOnce xs))
    | _ => pure .null
  | .orExpression first remaining, v => do
    let matched ← search first v
    match matched with
    | .null => search remaining v
    | m => pure m
  | .filterExpression pred, v =>
    (match v with
     | .arr elems => do
       let kept ← filterLoop pred elems
       pure (.proj kept)
     | .proj elems => do
       let kept ← multiFilter pred elems
       pure (.proj kept)
     | _ => pure .null)
  | .literal x, v =>
    match v with
    | .proj elems => pure (.proj (projGetLiteral x elems))
    | _ => pure x
  | .currentNode, v => pure v
  | .opEquals first second, v => do
    let a ← search first v
    let b ← search second v
    pure (.bool (opEq a b))
  | .opNotEquals first second, v => do
    let a ← search first v
    let b ← search second v
    pure (.bool (!(opEq a b)))
  | .opLessThan first second, v => do
    let a ← search first v
    let b ← search second v
    pure (.bool (pyCmp a b == .lt))
  | .opLessThanEquals first second, v => do
    let a ← search first v
    let b ← search second v
    pure (.bool (pyCmp a b != .gt))
  | .opGreaterThan first second, v => do
    let a ← search first v
    let b ← search second v
    pure (.bool (pyCmp a b == .gt))
  | .opGreaterThanEquals first second, v => do
    let a ← search first v
    let b ← search second v
    pure (.bool (pyCmp a b != .lt))
  | .funcExpr name args, v =>
    match getBuiltin name with
    | none => throw (.unknownFunction name)
      -- such a node cannot be constructed (the init resolves the name); modelled for totality
    | some sig =>
      match v with
      | .proj elems => do
        let rs ← funcCallLoop name args elems
        pure (.proj rs)
      | v =>
        if name = "sort_by" then sortByCall args v
        else do
          let resolved ← resolveLoop name args sig.1 (sig.1.getLastD ⟨true, none⟩) v
          if sig.2 = false && resolved.length != sig.1.length then
            throw .hostTypeErr
            -- the host call itself rejects a wrong argument count for a fixed-parameter function
          else applyBuiltin name resolved
termination_by a v => (sizeOf a, sizeOf v, 0)

/-- The _Projection.function_call hook: the wrapped call is applied to each
element, None results are dropped. -/
def funcCallLoop (name : String) (args : List AST) : List Value → Except Err (List Value)
  | [] => pure []
  | e :: es => do
    let current ← search (.funcExpr name args) e
    let rest ← funcCallLoop name args es
    match current with
    | .null => pure rest
    | c => pure (c :: rest)
termination_by l => (1 + sizeOf name + sizeOf args, sizeOf l, 0)

/-- The plain-list arm of FilterExpression.search: keep the elements whose
predicate result is truthy. -/
def filterLoop (pred : AST) : List Value → Except Err (List Value)
  | [] => pure []
  | e :: es => do
    let r ← search pred e
    let rest ← filterLoop pred es
    if pyTruthy r then pure (e :: rest) else pure rest
termination_by l => (sizeOf pred, sizeOf l, 0)

/-- The _Projection.multi_filter hook: sub-projections recurse and are kept
wholesale; plain elements are filtered by truthiness of the predicate. -/
def multiFilter (pred : AST) : List Value → Except Err (List Value)
  | [] => pure []
  | .proj inner :: es => do
    let sub ← multiFilter pred inner
    let rest ← multiFilter pred es
    pure (.proj sub :: rest)
  | e :: es => do
    let r ← search pred e
    let rest ← multiFilter pred es
    if pyTruthy r then pure (e :: rest) else pure rest
termination_by l => (sizeOf pred, sizeOf l, 0)

/-- The _Projection.multi_get hook: one dict per element, nested
projections recurse. -/
def projMultiGetDict (nodes : List AST) : List Value → Except Err (List Value)
  | [] => pure []
  | .proj inner :: es => do
    let sub ← projMultiGetDict nodes inner
    let rest ← projMultiGetDict nodes es
    pure (.proj sub :: rest)
  | e :: es => do
    let d ← multiGetDictOne nodes e
    let rest ← projMultiGetDict nodes es
    pure (.obj d :: rest)
termination_by l => (sizeOf nodes, sizeOf l, 0)

/-- MultiFieldDict._multi_get on a single value: the RHS node search runs
before the key_name attribute access, and a later duplicate key overwrites
the value while keeping the first position (dict assignment). -/
def multiGetDictOne (nodes : List AST) (v : Value) : Except Err (List (String × Value)) :=
  match nodes with
  | [] => pure []
  | node :: rest => do
    let r ← search node v
    let k ← astKeyName node
    let restD ← multiGetDictOne rest v
    match alookup restD k with
    | some w => pure ((k, w) :: eraseKey restD k)
    | none => pure ((k, r) :: restD)
termination_by (sizeOf nodes, sizeOf v, 1)

/-- The _Projection.multi_get_list hook. -/
def projMultiGetList (nodes : List AST) : List Value → Except Err (List Value)
  | [] => pure []
  | .proj inner :: es => do
    let sub ← projMultiGetList nodes inner
    let rest ← projMultiGetList nodes es
    pure (.proj sub :: rest)
  | e :: es => do
    let l ← multiGetListOne nodes e
    let rest ← projMultiGetList nodes es
    pure (.arr l :: rest)
termination_by l => (sizeOf nodes, sizeOf l, 0)

/-- MultiFieldList._multi_get on a single value. -/
def multiGetListOne (nodes : List AST) (v : Value) : Except Err (List Value) :=
  match nodes with
  | [] => pure []
  | node :: rest => do
    let r ← search node v
    let restL ← multiGetListOne rest v
    pure (r :: restL)
termination_by (sizeOf nodes, sizeOf v, 1)

/-- The argument-resolution loop of _resolve_arguments_wrapper, iterating
izip_longest(args, argspec, fillvalue=argspec[-1]) in order: resolve or
pass through each argument, then validate it against its paired spec. A
missing argument is the fill spec object; resolving it looks up a search
method it does not have (AttributeError). -/
def resolveLoop (fname : String) :
    List AST → List ArgSpec → ArgSpec → Value → Except Err (List ResolvedArg)
  | [], [], _, _ => pure []
  | [], s :: ss, fill, v => do
    let current ← (if s.resolve then throw Err.attributeErr else pure (ResolvedArg.spec fill))
    validateArg fname s.types current
    let rest ← resolveLoop fname [] ss fill v
    pure (current :: rest)
  | a :: ar, [], fill, v => do
    let current ←
      (if fill.resolve then do
        let r ← search a v
        pure (ResolvedArg.val r)
      else pure (ResolvedArg.expr a))
    validateArg fname fill.types current
    let rest ← resolveLoop fname ar [] fill v
    pure (current :: rest)
  | a :: ar, s :: ss, fill, v => do
    let current ←
      (if s.resolve then do
        let r ← search a v
        pure (ResolvedArg.val r)
      else pure (ResolvedArg.expr a))
    validateArg fname s.types current
    let rest ← resolveLoop fname ar ss fill v
    pure (current :: rest)
termination_by args specs _ v => (sizeOf args, sizeOf v, sizeOf specs)

/-- The sort_by call path: the generic wrapper instantiated at the sort_by
signature (first spec resolves with no declared types, second spec passes
the key expression through, fill is the second spec), inlined so the
per-element key evaluation sits inside the recursion. With one argument
the key is the fill spec object: sorted() consults the key only on a
nonempty list, so an empty list argument succeeds while a nonempty one
raises AttributeError. With no argument, resolving the fill for the first
spec raises AttributeError. Surplus arguments pass through unresolved and
the host call rejects the count. -/
def sortByCall (args : List AST) (v : Value) : Except Err Value :=
  match args with
  | [] => throw .attributeErr
  | [a0] => do
    let arg ← search a0 v
    match arg with
    | .arr [] => pure (.arr [])
    | .proj [] => pure (.arr [])
    | .arr _ => throw .attributeErr
    | .proj _ => throw .attributeErr
    | _ => pure .null
  | [a0, a1] => do
    let arg ← search a0 v
    match arg with
    | .arr xs => do
      let decorated ← sortKeyedLoop a1 xs
      pure (.arr ((pySortedPairs decorated).map (fun p => p.1)))
    | .proj xs => do
      let decorated ← sortKeyedLoop a1 xs
      pure (.arr ((pySortedPairs decorated).map (fun p => p.1)))
    | _ => pure .null
  | a0 :: _ :: _ :: _ => do
    let _ ← search a0 v
    throw .hostTypeErr
termination_by (sizeOf args, sizeOf v, 2)

/-- Decorate each element with its key expression value, in order (sorted
with a key function computes all keys first). -/
def sortKeyedLoop (key : AST) : List Value → Except Err (List (Value × Value))
  | [] => pure []
  | x :: xs => do
    let k ← search key x
    let rest ← sortKeyedLoop key xs
    pure ((x, k) :: rest)
termination_by l => (sizeOf key, sizeOf l, 0)
end

/-- FunctionExpression.__init__: the name must resolve in the registry at
construction time; an unknown name raises ValueError immediately, so no
node with an unresolved name ever reaches search. -/
def buildFunctionExpression (name : String) (args : List AST) : Except Err AST :=
  match getBuiltin name with
  | none => throw (.unknownFunction name)
  | some _ => pure (.funcExpr name args)

/-- Projection discriminator (the values the hook dispatch treats
specially). -/
def Value.isProj : Value → Bool
  | .proj _ => true
  | _ => false

/-- Unfolding of pure in the Except monad, used throughout to evaluate
search results. -/
theorem pureOk {A : Type} (a : A) : (pure a : Except Err A) = .ok a := rfl

/-- Bind on a success in the Except monad. -/
theorem okBind {A B : Type} (a : A) (f : A → Except Err B) :
    (Except.ok a : Except Err A) >>= f = f a := rfl

/-- Bind on a failure in the Except monad. -/
theorem errBind {A B : Type} (e : Err) (f : A → Except Err B) :
    (Except.error e : Except Err A) >>= f = .error e := rfl

/-- Unfolding of throw in the Except monad. -/
theorem throwErr {A : Type} (e : Err) : (throw e : Except Err A) = .error e := rfl

/-- Literal.search on any non-projection value returns the payload: no
get_literal hook is found, so the else branch returns literal_value. -/
theorem literal_search_nonproj (x v : Value) (hv : v.isProj = false) :
    search (.literal x) v = .ok x := by
  cases v <;> simp_all [search, Value.isProj, pureOk]

/-- C9: for every JSON value x and every plain (non-Projection) input
value v, Literal(x).search(v) = x, independent of v; evaluation at the
public entry point is exactly root search, so evaluate(Literal(x), v) = x. -/
theorem c9_literal_roundtrip (x v : Value) (hv : v.isProj = false) :
    search (.literal x) v = .ok x := by
  cases v <;> simp_all [search, Value.isProj, pureOk]

theorem c9_witness :
    (Value.str "anything").isProj = false ∧
    search (.literal (.obj [("a", .int 1)])) (.str "anything")
      = .ok (.obj [("a", .int 1)]) :=
  ⟨rfl, c9_literal_roundtrip (.obj [("a", .int 1)]) (.str "anything") rfl⟩

/-- C1 counterexample: an ordered comparison of the two strings "a" and
"b" returns the boolean True, not Null, although neither operand is a
number (operator.lt applies the host total order). -/
theorem c1_counterexample :
    search (.opLessThan (.literal (.str "a")) (.literal (.str "b"))) .null
      = .ok (.bool true) := by
  simp [search, pyCmp, cmpStr, pureOk, okBind]
  decide

/-- C1 amended: an ordered comparator never returns Null; whenever its two
operand expressions evaluate, it returns the boolean given by the host
(CPython 2) total order on the operand values, for every pair of operand
values, numbers or not. -/
theorem c1_ordered_comparator_amended (e1 e2 : AST) (v a b : Value)
    (h1 : search e1 v = .ok a) (h2 : search e2 v = .ok b) :
    search (.opLessThan e1 e2) v = .ok (.bool (pyCmp a b == .lt)) ∧
    search (.opLessThanEquals e1 e2) v = .ok (.bool (pyCmp a b != .gt)) ∧
    search (.opGreaterThan e1 e2) v = .ok (.bool (pyCmp a b == .gt)) ∧
    search (.opGreaterThanEquals e1 e2) v = .ok (.bool (pyCmp a b != .lt)) := by
  refine ⟨?_, ?_, ?_, ?_⟩ <;> simp [search, h1, h2, okBind, pureOk]

theorem c1_witness :
    search (.literal (.str "a")) .null = .ok (.str "a") ∧
    search (.literal (.int 0)) .null = .ok (.int 0) ∧
    search (.opLessThan (.literal (.str "a")) (.literal (.int 0))) .null
      = .ok (.bool (pyCmp (.str "a") (.int 0) == .lt)) := by
  have h1 : search (.literal (.str "a")) .null = .ok (.str "a") := by simp [search, pureOk]
  have h2 : search (.literal (.int 0)) .null = .ok (.int 0) := by simp [search, pureOk]
  exact ⟨h1, h2, (c1_ordered_comparator_amended _ _ _ _ _ h1 h2).1⟩

/-- The plain-array filter loop keeps exactly the elements whose predicate
result is truthy under host truthiness, with predicate results given
pointwise by f. -/
theorem filterLoop_ok (pred : AST) (f : Value → Value) :
    ∀ elems : List Value, (∀ e ∈ elems, search pred e = .ok (f e)) →
      filterLoop pred elems = .ok (elems.filter (fun e => pyTruthy (f e))) := by
  intro elems h
  induction elems with
  | nil => simp [filterLoop, pureOk]
  | cons e es ih =>
    have he := h e (by simp)
    have hes := ih (fun x hx => h x (by simp [hx]))
    by_cases ht : pyTruthy (f e) <;>
      simp [filterLoop, he, hes, ht, okBind, pureOk, List.filter_cons]

/-- C2 counterexample: filtering the one-element array [0] with the
identity predicate drops the element, because numeric 0 is falsy to the
host truthiness test the code uses; the claim requires it to be kept. -/
theorem c2_counterexample :
    search (.filterExpression .currentNode) (.arr [.int 0]) = .ok (.proj []) := by
  simp [search, filterLoop, pyTruthy, okBind, pureOk]

/-- C2 amended: FilterExpression(pred).search keeps exactly those elements
whose predicate value is truthy under the HOST truthiness rule: Null,
false, the empty string, the empty array, the empty object AND numeric
zero are falsy; in particular an element whose predicate evaluates to 0 is
dropped. -/
theorem c2_filter_truthiness_amended (pred : AST) (f : Value → Value) (elems : List Value)
    (h : ∀ e ∈ elems, search pred e = .ok (f e)) :
    search (.filterExpression pred) (.arr elems)
      = .ok (.proj (elems.filter (fun e => pyTruthy (f e)))) := by
  simp [search, filterLoop_ok pred f elems h, okBind, pureOk]

theorem c2_witness :
    (∀ e ∈ [Value.int 0, Value.int 2, Value.null, Value.str "x"],
        search .currentNode e = .ok (id e)) ∧
    search (.filterExpression .currentNode) (.arr [.int 0, .int 2, .null, .str "x"])
      = .ok (.proj [.int 2, .str "x"]) := by
  have h : ∀ e ∈ [Value.int 0, Value.int 2, Value.null, Value.str "x"],
      search .currentNode e = .ok (id e) := by
    intro e _
    simp [search, pureOk]
  refine ⟨h, ?_⟩
  have h2 := c2_filter_truthiness_amended .currentNode id _ h
  simpa [pyTruthy, List.filter_cons] using h2

/-- C4 counterexample: evaluate(@ == `1.0`, True) is True, not False: the
special case tests object identity (is 0, is 1), which no float satisfies,
so True == 1.0 falls through to the host equality and holds. -/
theorem c4_counterexample :
    search (.opEquals .currentNode (.literal (.float ⟨1, 1⟩))) (.bool true)
      = .ok (.bool true) := by
  simp [search, okBind, pureOk, opEq, isSpecialIntegerCase, isInt01, isBoolV,
    pyEq, numEq, Value.toNum]

/-- C4 amended: the boolean-versus-number special case fires only when the
number is the int 0 or 1 (the identity test over interned small ints):
a bool compared to ANY int is never equal (and always unequal), while a
bool compared to a float falls through to host numeric equality, so
True == 1.0 and False == 0.0 hold. -/
theorem c4_equality_bool_amended :
    (∀ (b : Bool) (n : Int),
        search (.opEquals .currentNode (.literal (.int n))) (.bool b)
          = .ok (.bool false) ∧
        search (.opNotEquals .currentNode (.literal (.int n))) (.bool b)
          = .ok (.bool true)) ∧
    (∀ (b : Bool) (f : PyFloat),
        search (.opEquals .currentNode (.literal (.float f))) (.bool b)
          = .ok (.bool (numEq (if b then 1 else 0, 1) (f.num, f.den)))) := by
  constructor
  · intro b n
    have key : opEq (.bool b) (.int n) = false := by
      by_cases h0 : n = 0
      · subst h0
        simp [opEq, isSpecialIntegerCase, isInt01, isBoolV]
      by_cases h1 : n = 1
      · subst h1
        simp [opEq, isSpecialIntegerCase, isInt01, isBoolV]
      · simp [opEq, isSpecialIntegerCase, isInt01, isBoolV, h0, h1, pyEq, numEq, Value.toNum]
        cases b <;> omega
    constructor <;> simp [search, okBind, pureOk, key]
  · intro b f
    simp [search, okBind, pureOk, opEq, isSpecialIntegerCase, isInt01, isBoolV,
      pyEq, numEq, Value.toNum]

/-- C6: a function name absent from the registry makes construction fail
immediately with the unknown-function build error, so search is never
reached with an unresolved name. -/
theorem c6_unknown_function (name : String) (args : List AST)
    (h : getBuiltin name = none) :
    buildFunctionExpression name args = .error (.unknownFunction name) := by
  simp [buildFunctionExpression, h, throwErr]

theorem c6_witness :
    getBuiltin "bogus" = none ∧
    buildFunctionExpression "bogus" [] = .error (.unknownFunction "bogus") :=
  ⟨rfl, c6_unknown_function "bogus" [] rfl⟩

/-- Dispatch of to_number at its name (the big name match does not rewrite
well; the per-name instance is definitional). -/
theorem applyBuiltin_to_number (a : ResolvedArg) :
    applyBuiltin "to_number" [a] = funcToNumber a := rfl

/-- C10: to_number, declared with no type restriction, raises the uncaught
host TypeError on null (the dot-membership test over None), on an array
and on an object (int()/float() conversion of a container), while numbers
and parseable strings stay total; only ValueError from parsing is caught. -/
theorem c10_to_number_host_type_error :
    search (.funcExpr "to_number" [.literal .null]) .null = .error .hostTypeErr ∧
    search (.funcExpr "to_number" [.literal (.arr [.int 1])]) .null = .error .hostTypeErr ∧
    search (.funcExpr "to_number" [.literal (.obj [("a", .int 1)])]) .null
      = .error .hostTypeErr ∧
    search (.funcExpr "to_number" [.literal (.str "2.5")]) .null
      = .ok (.float ⟨25, 10⟩) := by
  refine ⟨?_, ?_, ?_, ?_⟩ <;>
    simp [search, resolveLoop, validateArg, applyBuiltin_to_number, funcToNumber,
      getBuiltin, okBind, pureOk, throwErr] <;> rfl

/-- C7 counterexample: after WildcardIndex over [[null]], Index(0) yields a
one-element projection [null] although Index(0).search on the only element
yields Null: get_index appends element-wise results without a None check,
so the drop rule fails for Index as the subsequent node. -/
theorem c7_counterexample :
    search (.subExpression .wildcardIndex (.index 0)) (.arr [.arr [.null]])
      = .ok (.proj [.null]) ∧
    search (.index 0) (.arr [.null]) = .ok .null := by
  constructor <;> simp [search, okBind, pureOk, projGetIndex, pyIndex]

/-- Bool test for a Field search result that is not Null (Field search
never errors). -/
def fieldNotNull (name : String) (e : Value) : Bool :=
  match search (.field name) e with
  | .ok .null => false
  | _ => true

/-- The Field broadcast over a projection produces exactly one output per
element whose Field search is not Null: None results and elements without
a get method are dropped. -/
theorem projGet_length (name : String) :
    ∀ elems : List Value,
      (projGet name elems).length = (elems.filter (fieldNotNull name)).length := by
  intro elems
  induction elems with
  | nil => simp [projGet]
  | cons e es ih =>
    cases e with
    | null => simp [projGet, fieldNotNull, search, pureOk, List.filter_cons, ih]
    | bool b => simp [projGet, fieldNotNull, search, pureOk, List.filter_cons, ih]
    | int n => simp [projGet, fieldNotNull, search, pureOk, List.filter_cons, ih]
    | float f => simp [projGet, fieldNotNull, search, pureOk, List.filter_cons, ih]
    | str t => simp [projGet, fieldNotNull, search, pureOk, List.filter_cons, ih]
    | arr xs => simp [projGet, fieldNotNull, search, pureOk, List.filter_cons, ih]
    | proj inner => simp [projGet, fieldNotNull, search, pureOk, List.filter_cons, ih]
    | obj entries =>
      cases h : alookup entries name with
      | none => simp [projGet, h, fieldNotNull, search, pureOk, List.filter_cons, ih]
      | some r =>
        cases r <;>
          simp [projGet, h, fieldNotNull, search, pureOk, List.filter_cons, ih, asProjIfList]

/-- C7 amended: the projection drop rule holds for Field as the subsequent
node (the code path through _Projection.get): the projected result has
exactly one element per input element whose Field search is not Null. For
Index the rule fails (see the counterexample): get_index keeps element-wise
None results. -/
theorem c7_projection_drop_amended (name : String) (elems : List Value) :
    search (.subExpression .wildcardIndex (.field name)) (.arr elems)
      = .ok (.proj (projGet name elems)) ∧
    (projGet name elems).length = (elems.filter (fieldNotNull name)).length := by
  constructor
  · simp [search, okBind, pureOk]
  · exact projGet_length name elems

/-- Dispatch of abs at its name. -/
theorem applyBuiltin_abs (a : ResolvedArg) : applyBuiltin "abs" [a] = pure (funcAbs a) := rfl

/-- C5 counterexample: abs on a boolean raises JMESPathTypeError instead of
returning Null: the wrapper validates type(x).__name__ = bool against the
declared number types (float, int) before the body can special-case the
boolean to None. -/
theorem c5_counterexample :
    search (.funcExpr "abs" [.literal (.bool true)]) .null
      = .error (.typeErr "abs" (.val (.bool true)) "bool" ["number"]) := by
  simp [search, getBuiltin, resolveLoop, validateArg, buildAllowed, splitType, splitDash,
    reverseTypesMap, typeNameR, pyTypeName, okBind, errBind, pureOk, throwErr]

set_option maxHeartbeats 2000000 in
/-- C5 amended: abs on a boolean argument raises JMESPathTypeError (the
declared-number validation rejects the bool type name up front, making the
bool-to-Null special case in the body unreachable); on an int or float it
returns the absolute value. -/
theorem c5_abs_amended (v : Value) (hv : v.isProj = false) :
    (∀ b : Bool,
        search (.funcExpr "abs" [.literal (.bool b)]) v
          = .error (.typeErr "abs" (.val (.bool b)) "bool" ["number"])) ∧
    (∀ n : Int, search (.funcExpr "abs" [.literal (.int n)]) v = .ok (.int |n|)) ∧
    (∀ f : PyFloat,
        search (.funcExpr "abs" [.literal (.float f)]) v = .ok (.float ⟨|f.num|, f.den⟩)) := by
  refine ⟨fun b => ?_, fun n => ?_, fun f => ?_⟩ <;>
    cases v <;>
      simp_all [search, getBuiltin, resolveLoop, validateArg, buildAllowed, splitType,
        splitDash, reverseTypesMap, typeNameR, pyTypeName, Value.isProj, okBind, errBind,
        pureOk, throwErr, applyBuiltin_abs, funcAbs]

theorem c5_witness :
    Value.null.isProj = false ∧
    search (.funcExpr "abs" [.literal (.bool true)]) .null
      = .error (.typeErr "abs" (.val (.bool true)) "bool" ["number"]) ∧
    search (.funcExpr "abs" [.literal (.int (-3))]) .null = .ok (.int 3) := by
  have h := c5_abs_amended .null rfl
  refine ⟨rfl, h.1 true, ?_⟩
  have h2 := h.2.1 (-3)
  simpa using h2

/-- Dispatch of sort at its name. -/
theorem applyBuiltin_sort (a : ResolvedArg) : applyBuiltin "sort" [a] = pure (funcSort a) := rfl

/-- Associativity of bind in the Except monad. -/
theorem bindAssoc {A B C : Type} (x : Except Err A) (f : A → Except Err B) (g : B → Except Err C) :
    (x >>= f) >>= g = x >>= (fun a => f a >>= g) := by
  cases x <;> rfl

/-- The element-type loop errors exactly at the first element whose type
name is outside the selected group, citing that element. -/
theorem checkElems_eq (fname : String) (types sub : List String) :
    ∀ l : List Value,
      checkElems fname types sub l =
        match l.find? (fun e => decide (pyTypeName e ∉ sub)) with
        | some bad => .error (.typeErr fname (.val bad) (pyTypeName bad) types)
        | none => .ok () := by
  intro l
  induction l with
  | nil => simp [checkElems, pureOk]
  | cons e es ih =>
    by_cases h : pyTypeName e ∈ sub <;>
      simp [checkElems, h, List.find?_cons, ih, throwErr, pureOk, okBind]

/-- Evaluation of sort on a literal array argument over a non-projection
current value: subtype validation first, then the sorted list. -/
theorem search_sort_literal (elems : List Value) (v : Value) (hv : v.isProj = false) :
    search (.funcExpr "sort" [.literal (.arr elems)]) v
      = (validateArg "sort" (some ["array-string", "array-number"]) (.val (.arr elems))
          >>= fun _ => .ok (.arr (pySorted elems))) := by
  cases v <;>
    simp_all [search, getBuiltin, resolveLoop, Value.isProj, okBind, errBind, pureOk,
      throwErr, bindAssoc, applyBuiltin_sort, funcSort]

/-- C8: for sort (declared array-string|array-number) on a nonempty literal
array, the FIRST element picks the expected element-type group; if every
element is in the group validation passes and the sorted array results,
and otherwise a TypeError cites the first offending element. -/
theorem c8_sort_subtype (elems : List Value) (v : Value) (hv : v.isProj = false)
    (e0 : Value) (rest : List Value) (he : elems = e0 :: rest)
    (g : List String)
    (hg : findGroup (pyTypeName e0) [["unicode", "str"], ["float", "int"]] = some g) :
    ((∀ e ∈ elems, pyTypeName e ∈ g) →
        search (.funcExpr "sort" [.literal (.arr elems)]) v = .ok (.arr (pySorted elems))) ∧
    (∀ bad, elems.find? (fun e => decide (pyTypeName e ∉ g)) = some bad →
        search (.funcExpr "sort" [.literal (.arr elems)]) v
          = .error (.typeErr "sort" (.val bad) (pyTypeName bad)
              ["array-string", "array-number"])) := by
  have hval : validateArg "sort" (some ["array-string", "array-number"]) (.val (.arr elems))
      = checkElems "sort" ["array-string", "array-number"] g elems := by
    subst he
    have h1 : validateArg "sort" (some ["array-string", "array-number"])
          (.val (.arr (e0 :: rest)))
        = dynamicCheck "sort" ["array-string", "array-number"]
            [["unicode", "str"], ["float", "int"]] (e0 :: rest) := rfl
    rw [h1]
    simp only [dynamicCheck, hg]
  constructor
  · intro hall
    have hnone : elems.find? (fun e => decide (pyTypeName e ∉ g)) = none := by
      rw [List.find?_eq_none]
      intro x hx
      simp [hall x hx]
    rw [search_sort_literal elems v hv, hval, checkElems_eq, hnone]
    rfl
  · intro bad hbad
    rw [search_sort_literal elems v hv, hval, checkElems_eq, hbad]
    rfl

theorem c8_witness :
    search (.funcExpr "sort" [.literal (.arr [.int 3, .int 1])]) .null
      = .ok (.arr (pySorted [.int 3, .int 1])) ∧
    search (.funcExpr "sort" [.literal (.arr [.str "a", .int 1])]) .null
      = .error (.typeErr "sort" (.val (.int 1)) "int" ["array-string", "array-number"]) := by
  constructor
  · exact (c8_sort_subtype [.int 3, .int 1] .null rfl (.int 3) [.int 1] rfl
      ["float", "int"] rfl).1 (by decide)
  · exact (c8_sort_subtype [.str "a", .int 1] .null rfl (.str "a") [.int 1] rfl
      ["unicode", "str"] rfl).2 (.int 1) (by rfl)

/-- The resolution loop, when it succeeds, hands back exactly one resolved
argument per izip_longest pair: max of the argument count and the argspec
length. -/
theorem resolveLoop_ok_length (fname : String) :
    ∀ (args : List AST) (specs : List ArgSpec) (fill : ArgSpec) (v : Value)
      (l : List ResolvedArg),
      resolveLoop fname args specs fill v = .ok l →
      l.length = max args.length specs.length := by
  intro args
  induction args with
  | nil =>
    intro specs
    induction specs with
    | nil =>
      intro fill v l h
      simp [resolveLoop, pureOk] at h
      simp [← h]
    | cons s ss ih =>
      intro fill v l h
      simp only [resolveLoop] at h
      by_cases hr : s.resolve
      · simp [hr, throwErr, errBind] at h
      · simp only [hr, if_neg, Bool.false_eq_true, not_false_iff, if_false, pureOk, okBind] at h
        cases hv2 : validateArg fname s.types (.spec fill) with
        | error e => simp [hv2, errBind] at h
        | ok u =>
          cases u
          simp only [hv2, okBind] at h
          cases hrec : resolveLoop fname [] ss fill v with
          | error e => simp [hrec, errBind] at h
          | ok rest =>
            simp only [hrec, okBind, pureOk, Except.ok.injEq] at h
            have hlen := ih fill v rest hrec
            rw [← h]
            simp [List.length_cons, hlen]
  | cons a ar iha =>
    intro specs fill v l h
    have step :
        ∀ (s : ArgSpec) (ss : List ArgSpec),
          (do
            let current ←
              (if s.resolve then do
                let r ← search a v
                pure (ResolvedArg.val r)
              else pure (ResolvedArg.expr a))
            validateArg fname s.types current
            let rest ← resolveLoop fname ar ss fill v
            pure (current :: rest)) = Except.ok l →
          l.length = max (ar.length + 1) (ss.length + 1) := by
      intro s ss hh
      have main :
          ∀ current : ResolvedArg,
            (do
              validateArg fname s.types current
              let rest ← resolveLoop fname ar ss fill v
              pure (current :: rest)) = Except.ok l →
            l.length = max (ar.length + 1) (ss.length + 1) := by
        intro current hc
        cases hv2 : validateArg fname s.types current with
        | error e => simp [hv2, errBind] at hc
        | ok u =>
          cases u
          simp only [hv2, okBind] at hc
          cases hrec : resolveLoop fname ar ss fill v with
          | error e => simp [hrec, errBind] at hc
          | ok rest =>
            simp only [hrec, okBind, pureOk, Except.ok.injEq] at hc
            have hlen := iha ss fill v rest hrec
            rw [← hc]
            simp [List.length_cons, hlen]
            omega
      by_cases hr : s.resolve
      · rw [if_pos (by simp [hr])] at hh
        cases hs : search a v with
        | error e => simp [hs, errBind] at hh
        | ok r =>
          simp only [hs, okBind, pureOk] at hh
          exact main (.val r) hh
      · rw [if_neg (by simp [hr])] at hh
        exact main (.expr a) hh
    cases specs with
    | nil =>
      simp only [resolveLoop] at h
      have := step fill [] h
      simpa using this
    | cons s ss =>
      simp only [resolveLoop] at h
      have := step s ss h
      simpa using this

/-- C3 counterexample: no ArityMismatch exists anywhere. sort_by called
with its key argument missing SUCCEEDS silently on an empty array (the
fill spec is passed as key and sorted never consults it); abs with two
arguments resolves both and fails only at the host call with a TypeError;
abs with no argument fails resolving the fill spec with an AttributeError. -/
theorem c3_counterexample :
    search (.funcExpr "sort_by" [.literal (.arr [])]) .null = .ok (.arr []) ∧
    search (.funcExpr "abs" [.literal (.int 1), .literal (.int 2)]) .null
      = .error .hostTypeErr ∧
    search (.funcExpr "abs" []) .null = .error .attributeErr := by
  refine ⟨?_, ?_, ?_⟩ <;>
    simp [search, getBuiltin, sortByCall, resolveLoop, validateArg, buildAllowed, splitType,
      splitDash, reverseTypesMap, typeNameR, pyTypeName, okBind, errBind, pureOk, throwErr]

/-- C3 amended: the evaluator never raises a structured arity error;
izip_longest silently pairs arguments with specs (padding with the last
spec). For a non-variadic function such as abs, a wrong argument count
surfaces as a host-level failure at evaluation time: a missing argument
resolves the fill spec and raises AttributeError, surplus arguments pass
resolution and the host call raises TypeError - while sort_by with its key
missing even succeeds silently on an empty array. -/
theorem c3_arity_amended :
    (∀ (args : List AST) (v : Value), v.isProj = false → args.length ≠ 1 →
        ∃ e : Err, search (.funcExpr "abs" args) v = .error e) ∧
    search (.funcExpr "sort_by" [.literal (.arr [])]) .null = .ok (.arr []) := by
  constructor
  · intro args v hv hn
    match args with
    | [] =>
      refine ⟨.attributeErr, ?_⟩
      cases v <;>
        simp_all [search, getBuiltin, resolveLoop, Value.isProj, throwErr, errBind,
          okBind, pureOk]
    | [a] => simp at hn
    | a :: b :: br =>
      rcases hres : resolveLoop "abs" (a :: b :: br) [⟨true, some ["number"]⟩]
          ⟨true, some ["number"]⟩ v with e | resolved
      · refine ⟨e, ?_⟩
        cases v <;>
          simp_all [search, getBuiltin, Value.isProj, hres, okBind, errBind, throwErr]
      · have hlen := resolveLoop_ok_length "abs" _ _ _ _ _ hres
        have hne : (resolved.length != 1) = true := by
          simp only [bne_iff_ne, ne_eq]
          simp only [List.length_cons, List.length_singleton] at hlen
          omega
        refine ⟨.hostTypeErr, ?_⟩
        cases v <;>
          simp_all [search, getBuiltin, Value.isProj, hres, okBind, errBind, throwErr, hne]
  · simp [search, getBuiltin, sortByCall, okBind, pureOk]

theorem c3_witness :
    Value.null.isProj = false ∧
    [AST.currentNode, AST.currentNode].length ≠ 1 ∧
    (∃ e : Err, search (.funcExpr "abs" [.currentNode, .currentNode]) .null = .error e) := by
  refine ⟨rfl, by decide, ?_⟩
  exact c3_arity_amended.1 [AST.currentNode, AST.currentNode] .null rfl (by decide)
